import Mathlib

/-!
Shallow embedding of the DNS message decoder of `hannes-dev/scopa`
(`src/lib.rs`, with the older duplicate decoder of `src/main.rs` embedded in
the `RsMain` namespace).  Bytes of the input buffer are modelled as `Nat`
(always `< 256` for real inputs), Rust panics (out-of-range slice indexing,
`HashMap` indexing at a missing key) are modelled as `Except` errors, and the
`HashMap<usize, Vec<String>>` name cache is modelled as an association list
whose lookup returns the most recently inserted binding, matching
`HashMap::insert`'s replacement semantics.  A Rust `String` is modelled by the
list of its UTF-8 bytes; `String::from_utf8_lossy` is modelled by `utf8Lossy`,
which follows the standard library's "substitution of maximal subparts"
replacement policy.
-/

namespace Scopa

/-- The two panic sources of the decoder, kept distinguishable: slice reads
past the end of the buffer, and a compression pointer whose offset has no
entry in the name cache. -/
inductive DnsError where
  | outOfBounds
  | danglingPointer
deriving DecidableEq, Repr

/-- `struct Buffer` of `lib.rs`: an immutable byte buffer plus the index of
the next byte to read. -/
structure Buffer where
  next_index : Nat
  buffer : List Nat
deriving DecidableEq, Repr

/-- `Buffer::new`. -/
def Buffer.new (buf : List Nat) : Buffer :=
  { next_index := 0, buffer := buf }

/-- `Buffer::next`: return the byte at the current position and advance by
one; indexing past the end is the out-of-bounds panic. -/
def Buffer.next (b : Buffer) : Except DnsError (Nat × Buffer) :=
  match b.buffer[b.next_index]? with
  | some v => .ok (v, { next_index := b.next_index + 1, buffer := b.buffer })
  | none => .error .outOfBounds

/-- `Buffer::next_n`: return the next `n` bytes and advance by `n`; slicing
past the end is the out-of-bounds panic. -/
def Buffer.next_n (b : Buffer) (n : Nat) : Except DnsError (List Nat × Buffer) :=
  if b.next_index + n ≤ b.buffer.length then
    .ok ((b.buffer.drop b.next_index).take n,
         { next_index := b.next_index + n, buffer := b.buffer })
  else .error .outOfBounds

/-- `u16::from_be_bytes([buf.next(), buf.next()])`. -/
def Buffer.read16 (b : Buffer) : Except DnsError (Nat × Buffer) :=
  match b.next with
  | .error e => .error e
  | .ok (x, b) =>
    match b.next with
    | .error e => .error e
    | .ok (y, b) => .ok ((x <<< 8) ||| y, b)

/-- `u32::from_be_bytes([buf.next(), buf.next(), buf.next(), buf.next()])`. -/
def Buffer.read32 (b : Buffer) : Except DnsError (Nat × Buffer) :=
  match b.next with
  | .error e => .error e
  | .ok (x1, b) =>
    match b.next with
    | .error e => .error e
    | .ok (x2, b) =>
      match b.next with
      | .error e => .error e
      | .ok (x3, b) =>
        match b.next with
        | .error e => .error e
        | .ok (x4, b) => .ok ((x1 <<< 24) ||| (x2 <<< 16) ||| (x3 <<< 8) ||| x4, b)

/-- A decoded domain name: the ordered list of its labels, each label being
the UTF-8 bytes of the label's `String`. -/
abbrev Labels := List (List Nat)

/-- The name cache `HashMap<usize, Vec<String>>`, as an association list. -/
abbrev Names := List (Nat × Labels)

/-- `HashMap` lookup: the most recently inserted binding for a key wins. -/
def lookupName (names : Names) (k : Nat) : Option Labels :=
  match names with
  | [] => none
  | (k2, v) :: rest => if k2 = k then some v else lookupName rest k

/-- `HashMap::insert`: prepending shadows any earlier binding of the key. -/
def insertName (names : Names) (k : Nat) (v : Labels) : Names :=
  (k, v) :: names

/-- `fn bits_set(byte, bit_pos) { byte & bit_pos == bit_pos }`. -/
def bits_set (byte bit_pos : Nat) : Bool :=
  byte &&& bit_pos == bit_pos

/-- `struct Header` of `lib.rs`. -/
structure Header where
  id : Nat
  q_type : Nat
  truncated : Bool
  recursion_desired : Bool
  question_count : Nat
  answer_count : Nat
  authority_count : Nat
  additional_count : Nat
deriving DecidableEq, Repr

/-- `struct Question` of `lib.rs`. -/
structure Question where
  domain_name : Labels
  q_type : Nat
  q_class : Nat
deriving DecidableEq, Repr

/-- `enum ResourceData`: only the address-record variant exists, holding the
four octets of an `Ipv4Addr`. -/
inductive ResourceData where
  | A : Nat → Nat → Nat → Nat → ResourceData
deriving DecidableEq, Repr

/-- `struct ResourceRecord` of `lib.rs` (`r#type` is `type`, `class` is
`class_` since `class` is a Lean keyword). -/
structure ResourceRecord where
  name : Labels
  type : Nat
  class_ : Nat
  ttl : Nat
  data_length : Nat
  data : ResourceData
deriving DecidableEq, Repr

/-- `struct Message` of `lib.rs`. -/
structure Message where
  header : Header
  question : Question
  answers : Option (List ResourceRecord)
deriving DecidableEq, Repr

/-- A UTF-8 continuation byte (`0x80 ..= 0xBF`). -/
def isCont (c : Nat) : Bool :=
  0x80 ≤ c && c ≤ 0xBF

/-- Permitted second byte of a three-byte UTF-8 sequence, given its first
byte (the ranges of `core::str::validations::run_utf8_validation`). -/
def cont3ok (b c : Nat) : Bool :=
  (b == 0xE0 && 0xA0 ≤ c && c ≤ 0xBF) ||
  (0xE1 ≤ b && b ≤ 0xEC && isCont c) ||
  (b == 0xED && 0x80 ≤ c && c ≤ 0x9F) ||
  (0xEE ≤ b && b ≤ 0xEF && isCont c)

/-- Permitted second byte of a four-byte UTF-8 sequence, given its first
byte. -/
def cont4ok (b c : Nat) : Bool :=
  (b == 0xF0 && 0x90 ≤ c && c ≤ 0xBF) ||
  (0xF1 ≤ b && b ≤ 0xF3 && isCont c) ||
  (b == 0xF4 && 0x80 ≤ c && c ≤ 0x8F)

/-- UTF-8 encoding of U+FFFD REPLACEMENT CHARACTER. -/
def repl : List Nat := [0xEF, 0xBF, 0xBD]

/-- The UTF-8 bytes of `String::from_utf8_lossy(bytes)`: each maximal invalid
subpart is replaced by one U+FFFD, and a valid-so-far sequence cut off by the
end of the input is replaced by one U+FFFD. -/
def utf8Lossy : List Nat → List Nat
  | [] => []
  | b :: rest =>
    if b ≤ 0x7F then b :: utf8Lossy rest
    else if 0xC2 ≤ b && b ≤ 0xDF then
      match rest with
      | [] => repl
      | c :: rest2 =>
        if isCont c then b :: c :: utf8Lossy rest2
        else repl ++ utf8Lossy (c :: rest2)
    else if 0xE0 ≤ b && b ≤ 0xEF then
      match rest with
      | [] => repl
      | c :: rest2 =>
        if cont3ok b c then
          match rest2 with
          | [] => repl
          | d :: rest3 =>
            if isCont d then b :: c :: d :: utf8Lossy rest3
            else repl ++ utf8Lossy (d :: rest3)
        else repl ++ utf8Lossy (c :: rest2)
    else if 0xF0 ≤ b && b ≤ 0xF4 then
      match rest with
      | [] => repl
      | c :: rest2 =>
        if cont4ok b c then
          match rest2 with
          | [] => repl
          | d :: rest3 =>
            if isCont d then
              match rest3 with
              | [] => repl
              | e :: rest4 =>
                if isCont e then b :: c :: d :: e :: utf8Lossy rest4
                else repl ++ utf8Lossy (e :: rest4)
            else repl ++ utf8Lossy (d :: rest3)
        else repl ++ utf8Lossy (c :: rest2)
    else repl ++ utf8Lossy rest

/-- Whether a byte list is valid UTF-8 (on which `utf8Lossy` is identity). -/
def validUtf8 : List Nat → Bool
  | [] => true
  | b :: rest =>
    if b ≤ 0x7F then validUtf8 rest
    else if 0xC2 ≤ b && b ≤ 0xDF then
      match rest with
      | [] => false
      | c :: rest2 => isCont c && validUtf8 rest2
    else if 0xE0 ≤ b && b ≤ 0xEF then
      match rest with
      | [] => false
      | c :: rest2 =>
        if cont3ok b c then
          match rest2 with
          | [] => false
          | d :: rest3 => isCont d && validUtf8 rest3
        else false
    else if 0xF0 ≤ b && b ≤ 0xF4 then
      match rest with
      | [] => false
      | c :: rest2 =>
        if cont4ok b c then
          match rest2 with
          | [] => false
          | d :: rest3 =>
            if isCont d then
              match rest3 with
              | [] => false
              | e :: rest4 => isCont e && validUtf8 rest4
            else false
        else false
    else false

/-- The `while length > 0` loop of `parse_name`, with an explicit fuel
argument bounding the number of iterations.  The loop only reads the cache
(`names[&offset]`, a panic when the key is missing); insertion happens in
`parse_name` after the loop.  Each successful iteration consumes at least two
bytes of the buffer, so `parse_name`'s fuel of `buffer.length + 1` can never
run out on a run the Rust loop completes. -/
def parseNameLoop (names : Names) : Nat → Buffer → Nat → Labels → Except DnsError (Labels × Buffer)
  | 0, b, length, acc =>
    if length = 0 then .ok (acc, b) else .error .outOfBounds
  | fuel + 1, b, length, acc =>
    if length = 0 then .ok (acc, b)
    else if bits_set length 0b11000000 then
      match b.next with
      | .error e => .error e
      | .ok (lo, b1) =>
        match lookupName names (((length &&& 0b00111111) <<< 8) ||| lo) with
        | none => .error .danglingPointer
        | some found => .ok (acc ++ found, b1)
    else
      match b.next_n length with
      | .error e => .error e
      | .ok (chunk, b1) =>
        match b1.next with
        | .error e => .error e
        | .ok (length2, b2) => parseNameLoop names fuel b2 length2 (acc ++ [utf8Lossy chunk])

/-- `fn parse_name`: record the start offset, read the first length byte, run
the label loop, and cache the accumulated name under the start offset when it
is non-empty. -/
def parse_name (b : Buffer) (names : Names) : Except DnsError (Labels × Names × Buffer) :=
  let offset := b.next_index
  match b.next with
  | .error e => .error e
  | .ok (length, b1) =>
    match parseNameLoop names (b.buffer.length + 1) b1 length [] with
    | .error e => .error e
    | .ok (name, b2) =>
      .ok (name, if name.isEmpty then names else insertName names offset name, b2)

/-- `fn parse_question`. -/
def parse_question (b : Buffer) (names : Names) : Except DnsError (Question × Names × Buffer) :=
  match parse_name b names with
  | .error e => .error e
  | .ok (domain_name, names, b) =>
    match b.read16 with
    | .error e => .error e
    | .ok (q_type, b) =>
      match b.read16 with
      | .error e => .error e
      | .ok (q_class, b) =>
        .ok ({ domain_name, q_type, q_class }, names, b)

/-- The `match r#type` payload expression of `parse_resource_records`: type 1
reads four address octets, every other type reads nothing and produces the
zero placeholder. -/
def parse_rdata (b : Buffer) (type : Nat) : Except DnsError (ResourceData × Buffer) :=
  if type = 1 then
    match b.next with
    | .error e => .error e
    | .ok (o1, b) =>
      match b.next with
      | .error e => .error e
      | .ok (o2, b) =>
        match b.next with
        | .error e => .error e
        | .ok (o3, b) =>
          match b.next with
          | .error e => .error e
          | .ok (o4, b) => .ok (.A o1 o2 o3 o4, b)
  else .ok (.A 0 0 0 0, b)

/-- One iteration of the `for _ in 0..amt` loop of `parse_resource_records`:
decode a single resource record. -/
def parse_rr (b : Buffer) (names : Names) : Except DnsError (ResourceRecord × Names × Buffer) :=
  match parse_name b names with
  | .error e => .error e
  | .ok (name, names, b) =>
    match b.read16 with
    | .error e => .error e
    | .ok (type, b) =>
      match b.read16 with
      | .error e => .error e
      | .ok (class_, b) =>
        match b.read32 with
        | .error e => .error e
        | .ok (ttl, b) =>
          match b.read16 with
          | .error e => .error e
          | .ok (data_length, b) =>
            match parse_rdata b type with
            | .error e => .error e
            | .ok (data, b) =>
              .ok ({ name, type, class_, ttl, data_length, data }, names, b)

/-- The `for _ in 0..amt` loop of `parse_resource_records`, pushing records in
wire order. -/
def parse_rr_list : Buffer → Nat → Names → Except DnsError (List ResourceRecord × Names × Buffer)
  | b, 0, names => .ok ([], names, b)
  | b, amt + 1, names =>
    match parse_rr b names with
    | .error e => .error e
    | .ok (rr, names, b) =>
      match parse_rr_list b amt names with
      | .error e => .error e
      | .ok (rest, names, b) => .ok (rr :: rest, names, b)

/-- `fn parse_resource_records`: `None` when the count is zero, otherwise
`Some` of the decoded records. -/
def parse_resource_records (b : Buffer) (amt : Nat) (names : Names) :
    Except DnsError (Option (List ResourceRecord) × Names × Buffer) :=
  if amt = 0 then .ok (none, names, b)
  else
    match parse_rr_list b amt names with
    | .error e => .error e
    | .ok (rrs, names, b) => .ok (some rrs, names, b)

/-- `fn parse_header` of `lib.rs`: twelve sequential byte reads. -/
def parse_header (b : Buffer) : Except DnsError (Header × Buffer) :=
  match b.read16 with
  | .error e => .error e
  | .ok (id, b) =>
    match b.next with
    | .error e => .error e
    | .ok (flag_byte, b) =>
      let q_type := (flag_byte >>> 3) &&& 0b00001111
      let truncated := bits_set flag_byte 0x02
      let recursion_desired := bits_set flag_byte 0x01
      match b.next with
      | .error e => .error e
      | .ok (_, b) =>
        match b.read16 with
        | .error e => .error e
        | .ok (question_count, b) =>
          match b.read16 with
          | .error e => .error e
          | .ok (answer_count, b) =>
            match b.read16 with
            | .error e => .error e
            | .ok (authority_count, b) =>
              match b.read16 with
              | .error e => .error e
              | .ok (additional_count, b) =>
                .ok ({ id, q_type, truncated, recursion_desired,
                       question_count, answer_count, authority_count,
                       additional_count }, b)

/-- `pub fn parse_message` of `lib.rs`: header, fresh empty cache, one
question, then the answer records driven by the header's answer count. -/
def parse_message (buf : List Nat) : Except DnsError Message :=
  match parse_header (Buffer.new buf) with
  | .error e => .error e
  | .ok (header, b) =>
    match parse_question b [] with
    | .error e => .error e
    | .ok (question, names, b) =>
      match parse_resource_records b header.answer_count names with
      | .error e => .error e
      | .ok (answers, _, _) => .ok { header, question, answers }

namespace RsMain

/-- `fn parse_header` of `src/main.rs`: reads the twelve header bytes by
direct indexing (a panic — modelled as an error — when the buffer is shorter
than 12), sets the index to 12, and computes `q_type` as
`(buf[2] >> 3) | 0b00001111` — a bitwise OR, unlike the AND of `lib.rs`. -/
def parse_header (buf : List Nat) : Except DnsError (Header × Nat) :=
  if 12 ≤ buf.length then
    .ok ({ id := (buf[0]! <<< 8) ||| buf[1]!,
           q_type := (buf[2]! >>> 3) ||| 0b00001111,
           truncated := bits_set buf[2]! 0x02,
           recursion_desired := bits_set buf[2]! 0x01,
           question_count := (buf[4]! <<< 8) ||| buf[5]!,
           answer_count := (buf[6]! <<< 8) ||| buf[7]!,
           authority_count := (buf[8]! <<< 8) ||| buf[9]!,
           additional_count := (buf[10]! <<< 8) ||| buf[11]! }, 12)
  else .error .outOfBounds

end RsMain

/-- Re-encoding of a decoded name: each label prefixed by its byte length,
with a trailing zero byte appended. -/
def encodeName (name : Labels) : List Nat :=
  (name.flatMap fun l => l.length :: l) ++ [0]

/-- `PlainSpan buf L i` says: with current length byte `L` and the cursor at
`i`, the rest of the name encoding in `buf` consists only of plain labels
whose bytes are valid UTF-8, ending at a root terminator — i.e. the parse
from here encounters no compression pointer and no lossy replacement. -/
inductive PlainSpan (buf : List Nat) : Nat → Nat → Prop
  | root (i : Nat) : PlainSpan buf 0 i
  | label (L i L2 : Nat) (hne : L ≠ 0) (hptr : bits_set L 0b11000000 = false)
      (hval : validUtf8 ((buf.drop i).take L) = true)
      (hnext : buf[i + L]? = some L2)
      (htail : PlainSpan buf L2 (i + L + 1)) : PlainSpan buf L i

/-- Scenario A input: a question-only query for example.com. -/
def scenarioA : List Nat :=
  [141, 225, 1, 32, 0, 1, 0, 0, 0, 0, 0, 0, 7, 101, 120, 97, 109, 112, 108,
   101, 3, 99, 111, 109, 0, 0, 1, 0, 1]

/-- Scenario B input: the same question plus one answer whose name is the
compression pointer `192, 12`. -/
def scenarioB : List Nat :=
  [141, 225, 129, 160, 0, 1, 0, 1, 0, 0, 0, 0, 7, 101, 120, 97, 109, 112,
   108, 101, 3, 99, 111, 109, 0, 0, 1, 0, 1, 192, 12, 0, 1, 0, 1, 0, 1, 42,
   15, 0, 4, 93, 184, 216, 34]

/-- The label sequence ["example", "com"], as UTF-8 byte lists. -/
def exampleCom : Labels :=
  [[101, 120, 97, 109, 112, 108, 101], [99, 111, 109]]

/-- A two-answer message whose first answer has type 2 and declared data
length 4: header (id 1, counts 1/2/0/0), question `a`/1/1, answer one with
root name, type 2, class 1, ttl 0, data length 4, then the four payload
bytes `0,0,0,0` the skip should step over, then answer two with root name,
type 1, class 1, ttl 1, data length 4, data 1.2.3.4. -/
def c1buf : List Nat :=
  [0, 1, 0, 0, 0, 1, 0, 2, 0, 0, 0, 0,
   1, 97, 0, 0, 1, 0, 1,
   0, 0, 2, 0, 1, 0, 0, 0, 0, 0, 4,
   0, 0, 0, 0,
   0, 0, 1, 0, 1, 0, 0, 0, 1, 0, 4, 1, 2, 3, 4]

/-- The second answer record of `c1buf` as it sits on the wire, i.e. what a
decoder that skips the first answer's declared data length would return. -/
def c1aligned : ResourceRecord :=
  { name := [], type := 1, class_ := 1, ttl := 1, data_length := 4,
    data := .A 1 2 3 4 }

/-- The second answer record the decoder actually returns on `c1buf`: it is
read starting inside the first answer's payload. -/
def c1second : ResourceRecord :=
  { name := [], type := 0, class_ := 0, ttl := 65537, data_length := 0,
    data := .A 0 0 0 0 }

/-- A 12-byte header whose flag byte (index 2) is zero. -/
def c6buf : List Nat := [0, 0, 0, 0, 0, 0, 0, 0, 0, 0, 0, 0]

/-- A name consisting of the single label `0xFF` — one byte that is not
valid UTF-8. -/
def c7buf : List Nat := [1, 255, 0]

end Scopa

namespace Scopa

/-- C5: on the 29-byte scenario-A input, `parse_message` returns id 36321,
truncated false, recursion-desired true, question count 1, answer count 0,
the question example.com / type 1 / class 1, and absent (`none`) answers. -/
theorem c5_scenario_a :
    parse_message scenarioA = .ok
      { header := { id := 36321, q_type := 0, truncated := false,
                    recursion_desired := true, question_count := 1,
                    answer_count := 0, authority_count := 0,
                    additional_count := 0 },
        question := { domain_name := exampleCom, q_type := 1, q_class := 1 },
        answers := none } := by
  rfl

/-- C4: on the 45-byte scenario-B input, `parse_message` returns the same
header with answer count 1, the question example.com / 1 / 1, and exactly one
answer record named example.com (via the compression pointer `192, 12` to
offset 12), type 1, class 1, ttl 76303, and address data 93.184.216.34. -/
theorem c4_scenario_b :
    parse_message scenarioB = .ok
      { header := { id := 36321, q_type := 0, truncated := false,
                    recursion_desired := true, question_count := 1,
                    answer_count := 1, authority_count := 0,
                    additional_count := 0 },
        question := { domain_name := exampleCom, q_type := 1, q_class := 1 },
        answers := some [{ name := exampleCom, type := 1, class_ := 1,
                           ttl := 76303, data_length := 4,
                           data := .A 93 184 216 34 }] } := by
  rfl

/-- C1 counterexample: on `c1buf` the first answer has type 2 and declared
data length 4, so the claim demands that the cursor advance past the four
payload bytes and the second answer decode to `c1aligned` (type 1, class 1,
ttl 1, data 1.2.3.4).  Instead the decoder consumes zero payload bytes and
decodes the second answer from inside the first answer's payload, returning
`c1second` (type 0, class 0, ttl 65537), which differs from `c1aligned`. -/
theorem c1_counterexample :
    parse_message c1buf = .ok
      { header := { id := 1, q_type := 0, truncated := false,
                    recursion_desired := false, question_count := 1,
                    answer_count := 2, authority_count := 0,
                    additional_count := 0 },
        question := { domain_name := [[97]], q_type := 1, q_class := 1 },
        answers := some [{ name := [], type := 2, class_ := 1, ttl := 0,
                           data_length := 4, data := .A 0 0 0 0 },
                         c1second] }
    ∧ c1second ≠ c1aligned := by
  exact ⟨by rfl, by decide⟩

/-- C6: on the all-zero 12-byte header `c6buf` the claim demands opcode
`(flagByte >> 3) & 0x0F = 0`.  The `lib.rs` decoder returns 0, but the
`main.rs` decoder computes `(buf[2] >> 3) | 0x0F` (OR instead of AND) and
returns 15, exceeding nothing but contradicting the claimed formula. -/
theorem c6_opcode_divergence :
    RsMain.parse_header c6buf = .ok
      ({ id := 0, q_type := 15, truncated := false, recursion_desired := false,
         question_count := 0, answer_count := 0, authority_count := 0,
         additional_count := 0 }, 12)
    ∧ (c6buf[2]! >>> 3) &&& 0x0F = 0
    ∧ parse_header (Buffer.new c6buf) = .ok
        ({ id := 0, q_type := 0, truncated := false, recursion_desired := false,
           question_count := 0, answer_count := 0, authority_count := 0,
           additional_count := 0 }, { next_index := 12, buffer := c6buf }) := by
  exact ⟨by rfl, by decide, by rfl⟩

/-- C7 counterexample: the pointerless name `[1, 255, 0]` decodes (lossily)
to the single label U+FFFD, whose UTF-8 bytes are `[239, 191, 189]`;
re-encoding that label sequence with length prefixes and a trailing zero
gives `[3, 239, 191, 189, 0]`, which is not the consumed span `[1, 255, 0]`. -/
theorem c7_counterexample :
    parse_name (Buffer.new c7buf) [] =
      .ok ([[239, 191, 189]], [(0, [[239, 191, 189]])],
           { next_index := 3, buffer := c7buf })
    ∧ encodeName [[239, 191, 189]] ≠
        (c7buf.drop 0).take (3 - 0) := by
  exact ⟨by rfl, by decide⟩

/-- An in-range single-byte read succeeds and advances by one. -/
theorem next_ok_intro {buf : List Nat} {i v : Nat} (h : buf[i]? = some v) :
    Buffer.next { next_index := i, buffer := buf } =
      .ok (v, { next_index := i + 1, buffer := buf }) := by
  unfold Buffer.next
  simp [h]

/-- A read at or past the end of the buffer is the out-of-bounds error. -/
theorem next_err_of_le {b : Buffer} (h : b.buffer.length ≤ b.next_index) :
    b.next = .error .outOfBounds := by
  unfold Buffer.next
  rw [List.getElem?_eq_none h]

/-- What a successful single-byte read tells us. -/
theorem next_ok_elim {b : Buffer} {v : Nat} {b' : Buffer}
    (h : b.next = .ok (v, b')) :
    b.buffer[b.next_index]? = some v ∧
      b' = { next_index := b.next_index + 1, buffer := b.buffer } := by
  unfold Buffer.next at h
  cases hg : b.buffer[b.next_index]? <;> rw [hg] at h
  · exact absurd h (by simp)
  · simp only [Except.ok.injEq, Prod.mk.injEq] at h
    exact ⟨by rw [h.1], h.2.symm⟩

/-- An in-range slice read succeeds and advances by its length. -/
theorem next_n_ok_intro {buf : List Nat} {i n : Nat} (h : i + n ≤ buf.length) :
    Buffer.next_n { next_index := i, buffer := buf } n =
      .ok ((buf.drop i).take n, { next_index := i + n, buffer := buf }) := by
  unfold Buffer.next_n
  rw [if_pos h]

/-- What a successful slice read tells us. -/
theorem next_n_ok_elim {b : Buffer} {n : Nat} {chunk : List Nat} {b' : Buffer}
    (h : b.next_n n = .ok (chunk, b')) :
    b.next_index + n ≤ b.buffer.length ∧
      chunk = (b.buffer.drop b.next_index).take n ∧
      b' = { next_index := b.next_index + n, buffer := b.buffer } := by
  unfold Buffer.next_n at h
  by_cases hle : b.next_index + n ≤ b.buffer.length
  · rw [if_pos hle] at h
    simp only [Except.ok.injEq, Prod.mk.injEq] at h
    exact ⟨hle, h.1.symm, h.2.symm⟩
  · rw [if_neg hle] at h
    exact absurd h (by simp)

/-- A successful 16-bit read advances the cursor by exactly two. -/
theorem read16_ok_elim {b : Buffer} {v : Nat} {b' : Buffer}
    (h : b.read16 = .ok (v, b')) :
    b' = { next_index := b.next_index + 2, buffer := b.buffer } := by
  unfold Buffer.read16 at h
  cases h1 : b.next with
  | error e => rw [h1] at h; exact absurd h (by simp)
  | ok p =>
    obtain ⟨x, b1⟩ := p
    rw [h1] at h
    dsimp only at h
    obtain ⟨-, hb1⟩ := next_ok_elim h1
    cases h2 : b1.next with
    | error e => rw [h2] at h; exact absurd h (by simp)
    | ok q =>
      obtain ⟨y, b2⟩ := q
      rw [h2] at h
      dsimp only at h
      obtain ⟨-, hb2⟩ := next_ok_elim h2
      simp only [Except.ok.injEq, Prod.mk.injEq] at h
      subst hb1
      subst hb2
      rw [← h.2]

/-- A successful 32-bit read advances the cursor by exactly four. -/
theorem read32_ok_elim {b : Buffer} {v : Nat} {b' : Buffer}
    (h : b.read32 = .ok (v, b')) :
    b' = { next_index := b.next_index + 4, buffer := b.buffer } := by
  unfold Buffer.read32 at h
  cases h1 : b.next with
  | error e => rw [h1] at h; exact absurd h (by simp)
  | ok p =>
    obtain ⟨x1, b1⟩ := p
    rw [h1] at h
    dsimp only at h
    obtain ⟨-, hb1⟩ := next_ok_elim h1
    cases h2 : b1.next with
    | error e => rw [h2] at h; exact absurd h (by simp)
    | ok q =>
      obtain ⟨x2, b2⟩ := q
      rw [h2] at h
      dsimp only at h
      obtain ⟨-, hb2⟩ := next_ok_elim h2
      cases h3 : b2.next with
      | error e => rw [h3] at h; exact absurd h (by simp)
      | ok r =>
        obtain ⟨x3, b3⟩ := r
        rw [h3] at h
        dsimp only at h
        obtain ⟨-, hb3⟩ := next_ok_elim h3
        cases h4 : b3.next with
        | error e => rw [h4] at h; exact absurd h (by simp)
        | ok s =>
          obtain ⟨x4, b4⟩ := s
          rw [h4] at h
          dsimp only at h
          obtain ⟨-, hb4⟩ := next_ok_elim h4
          simp only [Except.ok.injEq, Prod.mk.injEq] at h
          subst hb1
          subst hb2
          subst hb3
          subst hb4
          rw [← h.2]

/-- What a successful payload decode tells us: type 1 consumes four bytes,
every other type consumes none and yields the zero placeholder. -/
theorem parse_rdata_ok_elim {b : Buffer} {t : Nat} {d : ResourceData} {b' : Buffer}
    (h : parse_rdata b t = .ok (d, b')) :
    (t = 1 → b' = { next_index := b.next_index + 4, buffer := b.buffer }) ∧
    (t ≠ 1 → d = .A 0 0 0 0 ∧ b' = b) := by
  unfold parse_rdata at h
  by_cases ht : t = 1
  · rw [if_pos ht] at h
    refine ⟨fun _ => ?_, fun hne => absurd ht hne⟩
    cases h1 : b.next with
    | error e => rw [h1] at h; exact absurd h (by simp)
    | ok p =>
      obtain ⟨o1, b1⟩ := p
      rw [h1] at h
      dsimp only at h
      obtain ⟨-, hb1⟩ := next_ok_elim h1
      cases h2 : b1.next with
      | error e => rw [h2] at h; exact absurd h (by simp)
      | ok q =>
        obtain ⟨o2, b2⟩ := q
        rw [h2] at h
        dsimp only at h
        obtain ⟨-, hb2⟩ := next_ok_elim h2
        cases h3 : b2.next with
        | error e => rw [h3] at h; exact absurd h (by simp)
        | ok r =>
          obtain ⟨o3, b3⟩ := r
          rw [h3] at h
          dsimp only at h
          obtain ⟨-, hb3⟩ := next_ok_elim h3
          cases h4 : b3.next with
          | error e => rw [h4] at h; exact absurd h (by simp)
          | ok s =>
            obtain ⟨o4, b4⟩ := s
            rw [h4] at h
            dsimp only at h
            obtain ⟨-, hb4⟩ := next_ok_elim h4
            simp only [Except.ok.injEq, Prod.mk.injEq] at h
            subst hb1
            subst hb2
            subst hb3
            subst hb4
            rw [← h.2]
  · rw [if_neg ht] at h
    simp only [Except.ok.injEq, Prod.mk.injEq] at h
    exact ⟨fun heq => absurd heq ht, fun _ => ⟨h.1.symm, h.2.symm⟩⟩

/-- C1 (amended): for every decoded payload, a record type other than 1
yields the unknown/zero placeholder and advances the cursor by zero bytes —
not by the declared data length — while type 1 always consumes exactly four
bytes; the declared data length never drives the cursor, so a record whose
declared length differs from the consumed amount (4 for type 1, else 0)
leaves subsequent records misaligned. -/
theorem c1_rdata_behavior :
    ∀ (b : Buffer) (t : Nat) (d : ResourceData) (b' : Buffer),
      parse_rdata b t = .ok (d, b') →
      (t ≠ 1 → d = .A 0 0 0 0 ∧ b' = b) ∧
      (t = 1 → b' = { next_index := b.next_index + 4, buffer := b.buffer }) := by
  intro b t d b' h
  obtain ⟨h1, h2⟩ := parse_rdata_ok_elim h
  exact ⟨h2, h1⟩

/-- Witness for `c1_rdata_behavior` at type 2 with four payload bytes on the
wire: the decoder returns the placeholder without moving the cursor. -/
theorem c1_rdata_behavior_witness :
    ResourceData.A 0 0 0 0 = ResourceData.A 0 0 0 0 ∧
      Buffer.new [9, 9, 9, 9] = Buffer.new [9, 9, 9, 9] :=
  (c1_rdata_behavior (Buffer.new [9, 9, 9, 9]) 2 (.A 0 0 0 0)
    (Buffer.new [9, 9, 9, 9]) (by rfl)).1 (by decide)

/-- C2: whenever one resource record is decoded successfully, the cursor
lands exactly 10 bytes (type, class, ttl, data length) past the end of the
record's name, plus 4 payload bytes when the type is 1 and 0 payload bytes
for any other type — a quantity independent of the declared `data_length`,
which is stored in the record but never used to position the cursor. -/
theorem c2_payload_consumption :
    ∀ (b : Buffer) (names : Names) (rr : ResourceRecord) (names' : Names)
      (b' : Buffer),
      parse_rr b names = .ok (rr, names', b') →
      ∃ bn namesn, parse_name b names = .ok (rr.name, namesn, bn) ∧
        b'.buffer = bn.buffer ∧
        b'.next_index = bn.next_index + 10 + (if rr.type = 1 then 4 else 0) := by
  intro b names rr names' b' h
  unfold parse_rr at h
  cases h1 : parse_name b names with
  | error e => rw [h1] at h; exact absurd h (by simp)
  | ok p =>
    obtain ⟨name, names1, b1⟩ := p
    rw [h1] at h
    dsimp only at h
    cases h2 : b1.read16 with
    | error e => rw [h2] at h; exact absurd h (by simp)
    | ok q =>
      obtain ⟨type, b2⟩ := q
      rw [h2] at h
      dsimp only at h
      have hb2 := read16_ok_elim h2
      cases h3 : b2.read16 with
      | error e => rw [h3] at h; exact absurd h (by simp)
      | ok r =>
        obtain ⟨class_, b3⟩ := r
        rw [h3] at h
        dsimp only at h
        have hb3 := read16_ok_elim h3
        cases h4 : b3.read32 with
        | error e => rw [h4] at h; exact absurd h (by simp)
        | ok s =>
          obtain ⟨ttl, b4⟩ := s
          rw [h4] at h
          dsimp only at h
          have hb4 := read32_ok_elim h4
          cases h5 : b4.read16 with
          | error e => rw [h5] at h; exact absurd h (by simp)
          | ok u =>
            obtain ⟨data_length, b5⟩ := u
            rw [h5] at h
            dsimp only at h
            have hb5 := read16_ok_elim h5
            cases h6 : parse_rdata b5 type with
            | error e => rw [h6] at h; exact absurd h (by simp)
            | ok w =>
              obtain ⟨data, b6⟩ := w
              rw [h6] at h
              dsimp only at h
              have hb6 := parse_rdata_ok_elim h6
              simp only [Except.ok.injEq, Prod.mk.injEq] at h
              obtain ⟨hrr, -, hb'⟩ := h
              refine ⟨b1, names1, ?_, ?_, ?_⟩
              · rw [← hrr]
              · subst hb'
                subst hb2
                subst hb3
                subst hb4
                subst hb5
                by_cases ht : type = 1
                · rw [(hb6.1 ht)]
                · rw [(hb6.2 ht).2]
              · subst hb'
                subst hb2
                subst hb3
                subst hb4
                subst hb5
                rw [← hrr]
                by_cases ht : type = 1
                · rw [(hb6.1 ht)]
                  simp [ht]
                · rw [(hb6.2 ht).2]
                  simp [ht]

/-- Witness for `c2_payload_consumption` on a one-record buffer with a root
name, type 1, declared length 4 and four payload bytes. -/
theorem c2_payload_consumption_witness :
    ∃ bn namesn,
      parse_name (Buffer.new [0, 0, 1, 0, 1, 0, 0, 0, 0, 0, 4, 9, 9, 9, 9]) [] =
        .ok (({ name := [], type := 1, class_ := 1, ttl := 0, data_length := 4,
                data := .A 9 9 9 9 } : ResourceRecord).name, namesn, bn) ∧
      (Buffer.mk 15 [0, 0, 1, 0, 1, 0, 0, 0, 0, 0, 4, 9, 9, 9, 9]).buffer = bn.buffer ∧
      (Buffer.mk 15 [0, 0, 1, 0, 1, 0, 0, 0, 0, 0, 4, 9, 9, 9, 9]).next_index =
        bn.next_index + 10 +
          (if ({ name := [], type := 1, class_ := 1, ttl := 0, data_length := 4,
                 data := .A 9 9 9 9 } : ResourceRecord).type = 1 then 4 else 0) :=
  c2_payload_consumption (Buffer.new [0, 0, 1, 0, 1, 0, 0, 0, 0, 0, 4, 9, 9, 9, 9]) []
    { name := [], type := 1, class_ := 1, ttl := 0, data_length := 4, data := .A 9 9 9 9 }
    [] (Buffer.mk 15 [0, 0, 1, 0, 1, 0, 0, 0, 0, 0, 4, 9, 9, 9, 9]) (by rfl)

/-- A slice read reaching past the end of the buffer fails. -/
theorem next_n_err_of_lt {b : Buffer} {n : Nat}
    (h : b.buffer.length < b.next_index + n) :
    b.next_n n = .error .outOfBounds := by
  unfold Buffer.next_n
  rw [if_neg (by omega)]

/-- A buffer shorter than the 12-byte header makes `parse_header` fail with
the out-of-bounds error. -/
theorem parse_header_short : ∀ (l : List Nat), l.length < 12 →
    parse_header (Buffer.new l) = .error .outOfBounds
  | [], _ => rfl
  | [a0], _ => rfl
  | [a0, a1], _ => rfl
  | [a0, a1, a2], _ => rfl
  | [a0, a1, a2, a3], _ => rfl
  | [a0, a1, a2, a3, a4], _ => rfl
  | [a0, a1, a2, a3, a4, a5], _ => rfl
  | [a0, a1, a2, a3, a4, a5, a6], _ => rfl
  | [a0, a1, a2, a3, a4, a5, a6, a7], _ => rfl
  | [a0, a1, a2, a3, a4, a5, a6, a7, a8], _ => rfl
  | [a0, a1, a2, a3, a4, a5, a6, a7, a8, a9], _ => rfl
  | [a0, a1, a2, a3, a4, a5, a6, a7, a8, a9, a10], _ => rfl
  | a0 :: a1 :: a2 :: a3 :: a4 :: a5 :: a6 :: a7 :: a8 :: a9 :: a10 :: a11 :: rest,
    h => by
      simp only [List.length_cons] at h
      omega

/-- A buffer shorter than the header makes the whole decode fail. -/
theorem parse_message_short (l : List Nat) (h : l.length < 12) :
    parse_message l = .error .outOfBounds := by
  unfold parse_message
  rw [parse_header_short l h]

/-- The label loop returns its accumulator untouched on a root length byte. -/
theorem parseNameLoop_zero (names : Names) (fuel : Nat) (b : Buffer) (acc : Labels) :
    parseNameLoop names fuel b 0 acc = .ok (acc, b) := by
  cases fuel <;> rfl

/-- A pointer length byte whose target offset is missing from the cache makes
`parse_name` fail with the dangling-pointer error. -/
theorem parse_name_dangling :
    ∀ (b : Buffer) (names : Names) (L B2 : Nat),
      b.buffer[b.next_index]? = some L →
      bits_set L 0b11000000 = true →
      b.buffer[b.next_index + 1]? = some B2 →
      lookupName names (((L &&& 0b00111111) <<< 8) ||| B2) = none →
      parse_name b names = .error .danglingPointer := by
  intro b names L B2 hL hptr hB hlook
  obtain ⟨i, buf⟩ := b
  have hne : L ≠ 0 := by
    intro h0
    rw [h0] at hptr
    exact absurd hptr (by decide)
  simp only [parse_name]
  rw [next_ok_intro hL]
  simp only [parseNameLoop, if_neg hne, hptr, if_true]
  rw [next_ok_intro hB]
  dsimp only
  rw [hlook]

/-- C3: every failure of the decoder is surfaced as a distinguishable error
value rather than as a message: a single-byte read at or past the end fails
with `outOfBounds`; a slice read past the end fails with `outOfBounds`; a
buffer too short for the header makes `parse_message` return
`outOfBounds`; a compression pointer whose offset is not in the name cache
makes `parse_name` return `danglingPointer`; and the two errors are
distinct. -/
theorem c3_failures :
    (∀ b : Buffer, b.buffer.length ≤ b.next_index →
        b.next = .error .outOfBounds) ∧
    (∀ (b : Buffer) (n : Nat), b.buffer.length < b.next_index + n →
        b.next_n n = .error .outOfBounds) ∧
    (∀ buf : List Nat, buf.length < 12 →
        parse_message buf = .error .outOfBounds) ∧
    (∀ (b : Buffer) (names : Names) (L B2 : Nat),
        b.buffer[b.next_index]? = some L →
        bits_set L 0b11000000 = true →
        b.buffer[b.next_index + 1]? = some B2 →
        lookupName names (((L &&& 0b00111111) <<< 8) ||| B2) = none →
        parse_name b names = .error .danglingPointer) ∧
    DnsError.outOfBounds ≠ DnsError.danglingPointer := by
  refine ⟨fun b h => next_err_of_le h,
          fun b n h => next_n_err_of_lt h,
          fun buf h => parse_message_short buf h,
          parse_name_dangling,
          by decide⟩

/-- Witness for `c3_failures`: a read at index 5 of a 3-byte buffer, a
9-byte slice of a 3-byte buffer, a 3-byte message, and a pointer to offset 5
with an empty cache. -/
theorem c3_failures_witness :
    Buffer.next { next_index := 5, buffer := [1, 2, 3] } = .error .outOfBounds ∧
    Buffer.next_n { next_index := 0, buffer := [1, 2, 3] } 9 = .error .outOfBounds ∧
    parse_message [1, 2, 3] = .error .outOfBounds ∧
    parse_name { next_index := 0, buffer := [192, 5] } [] = .error .danglingPointer :=
  ⟨c3_failures.1 { next_index := 5, buffer := [1, 2, 3] } (by decide),
   c3_failures.2.1 { next_index := 0, buffer := [1, 2, 3] } 9 (by decide),
   c3_failures.2.2.1 [1, 2, 3] (by decide),
   c3_failures.2.2.2.1 { next_index := 0, buffer := [192, 5] } [] 192 5
     (by rfl) (by decide) (by rfl) (by rfl)⟩

/-- C8: when the name at the cursor starts with a pointer byte `L` (both top
bits set) followed by `B`, and the cache holds `ls` at offset
`((L & 0x3F) << 8) | B` — an absolute offset into the whole message buffer —
`parse_name` returns exactly `ls` and leaves the cursor two bytes further,
so a name that is purely a pointer to an already-decoded name yields the
label sequence decoded at that offset. -/
theorem c8_pointer_resolution :
    ∀ (b : Buffer) (names : Names) (L B2 : Nat) (ls : Labels),
      b.buffer[b.next_index]? = some L →
      bits_set L 0b11000000 = true →
      b.buffer[b.next_index + 1]? = some B2 →
      lookupName names (((L &&& 0b00111111) <<< 8) ||| B2) = some ls →
      parse_name b names = .ok (ls,
        (if ls = [] then names else insertName names b.next_index ls),
        { next_index := b.next_index + 2, buffer := b.buffer }) := by
  intro b names L B2 ls hL hptr hB hlook
  obtain ⟨i, buf⟩ := b
  have hne : L ≠ 0 := by
    intro h0
    rw [h0] at hptr
    exact absurd hptr (by decide)
  simp only [parse_name]
  rw [next_ok_intro hL]
  simp only [parseNameLoop, if_neg hne, hptr, if_true]
  rw [next_ok_intro hB]
  dsimp only
  rw [hlook]
  cases ls <;> simp [insertName]

/-- Witness for `c8_pointer_resolution`: the pointer bytes `192, 0` at
offset 3 resolve through a cache holding the label `a` at offset 0. -/
theorem c8_pointer_resolution_witness :
    parse_name { next_index := 3, buffer := [1, 97, 0, 192, 0] } [(0, [[97]])] =
      .ok ([[97]],
        (if ([[97]] : Labels) = [] then [(0, [[97]])]
         else insertName [(0, [[97]])] 3 [[97]]),
        { next_index := 5, buffer := [1, 97, 0, 192, 0] }) :=
  c8_pointer_resolution { next_index := 3, buffer := [1, 97, 0, 192, 0] }
    [(0, [[97]])] 192 0 [[97]] (by rfl) (by decide) (by rfl) (by rfl)

/-- C9: the cache discipline of `parse_name`.  A bare-root name (first
length byte 0) returns the empty label sequence, advances one byte, and
leaves the cache untouched; and in general the cache after a successful
`parse_name` is unchanged when the decoded name is empty, and otherwise is
exactly the old cache extended — only after the name is completely decoded —
with the start offset of the name mapped to the full decoded label
sequence. -/
theorem c9_cache_invariant :
    (∀ (b : Buffer) (names : Names),
        b.buffer[b.next_index]? = some 0 →
        parse_name b names = .ok ([], names,
          { next_index := b.next_index + 1, buffer := b.buffer })) ∧
    (∀ (b : Buffer) (names : Names) (labels : Labels) (names' : Names)
        (b' : Buffer),
        parse_name b names = .ok (labels, names', b') →
        names' = if labels = [] then names
                 else insertName names b.next_index labels) := by
  constructor
  · intro b names h0
    obtain ⟨i, buf⟩ := b
    simp only [parse_name]
    rw [next_ok_intro h0]
    dsimp only
    rw [parseNameLoop_zero]
    simp
  · intro b names labels names' b' h
    unfold parse_name at h
    cases h1 : b.next with
    | error e => rw [h1] at h; exact absurd h (by simp)
    | ok p =>
      obtain ⟨len, b1⟩ := p
      rw [h1] at h
      dsimp only at h
      cases h2 : parseNameLoop names (b.buffer.length + 1) b1 len [] with
      | error e => rw [h2] at h; exact absurd h (by simp)
      | ok q =>
        obtain ⟨nm, b2⟩ := q
        rw [h2] at h
        dsimp only at h
        simp only [Except.ok.injEq, Prod.mk.injEq] at h
        obtain ⟨hl, hn, -⟩ := h
        subst hl
        rw [← hn]
        cases nm <;> simp [insertName]

/-- Witness for `c9_cache_invariant`: a bare-root name leaves the cache
empty, and the one-label name `a` at offset 0 is cached under offset 0. -/
theorem c9_cache_invariant_witness :
    parse_name { next_index := 0, buffer := [0, 7] } [] =
      .ok ([], [], { next_index := 1, buffer := [0, 7] }) ∧
    ([(0, [[97]])] : Names) =
      (if ([[97]] : Labels) = [] then ([] : Names)
       else insertName [] 0 [[97]]) :=
  ⟨c9_cache_invariant.1 { next_index := 0, buffer := [0, 7] } [] (by rfl),
   c9_cache_invariant.2 { next_index := 0, buffer := [1, 97, 0] } [] [[97]]
     [(0, [[97]])] { next_index := 3, buffer := [1, 97, 0] } (by rfl)⟩

/-- Every successful run of the record loop returns exactly as many records
as it was asked for. -/
theorem parse_rr_list_len :
    ∀ (amt : Nat) (b : Buffer) (names : Names) (l : List ResourceRecord)
      (names' : Names) (b' : Buffer),
      parse_rr_list b amt names = .ok (l, names', b') → l.length = amt := by
  intro amt
  induction amt with
  | zero =>
    intro b names l names' b' h
    simp only [parse_rr_list] at h
    simp only [Except.ok.injEq, Prod.mk.injEq] at h
    rw [← h.1]
    rfl
  | succ n ih =>
    intro b names l names' b' h
    simp only [parse_rr_list] at h
    cases h1 : parse_rr b names with
    | error e => rw [h1] at h; exact absurd h (by simp)
    | ok p =>
      obtain ⟨rr, names1, b1⟩ := p
      rw [h1] at h
      dsimp only at h
      cases h2 : parse_rr_list b1 n names1 with
      | error e => rw [h2] at h; exact absurd h (by simp)
      | ok q =>
        obtain ⟨rest, names2, b2⟩ := q
        rw [h2] at h
        dsimp only at h
        simp only [Except.ok.injEq, Prod.mk.injEq] at h
        rw [← h.1]
        simp [List.length_cons, ih _ _ _ _ _ h2]

/-- C10: a successfully decoded message has absent (`none`) answers exactly
when the header's answer count is zero, and for a positive answer count N it
has a present list of exactly N records. -/
theorem c10_answers_presence :
    ∀ (buf : List Nat) (m : Message), parse_message buf = .ok m →
      (m.header.answer_count = 0 → m.answers = none) ∧
      (0 < m.header.answer_count →
        ∃ l, m.answers = some l ∧ l.length = m.header.answer_count) := by
  intro buf m h
  unfold parse_message at h
  cases h1 : parse_header (Buffer.new buf) with
  | error e => rw [h1] at h; exact absurd h (by simp)
  | ok p =>
    obtain ⟨header, b1⟩ := p
    rw [h1] at h
    dsimp only at h
    cases h2 : parse_question b1 [] with
    | error e => rw [h2] at h; exact absurd h (by simp)
    | ok q =>
      obtain ⟨question, names1, b2⟩ := q
      rw [h2] at h
      dsimp only at h
      cases h3 : parse_resource_records b2 header.answer_count names1 with
      | error e => rw [h3] at h; exact absurd h (by simp)
      | ok r =>
        obtain ⟨answers, names2, b3⟩ := r
        rw [h3] at h
        dsimp only at h
        simp only [Except.ok.injEq] at h
        subst h
        dsimp only
        unfold parse_resource_records at h3
        by_cases ha : header.answer_count = 0
        · rw [if_pos ha] at h3
          simp only [Except.ok.injEq, Prod.mk.injEq] at h3
          constructor
          · intro _
            rw [← h3.1]
          · intro hlt
            rw [ha] at hlt
            exact absurd hlt (by simp)
        · rw [if_neg ha] at h3
          cases h4 : parse_rr_list b2 header.answer_count names1 with
          | error e => rw [h4] at h3; exact absurd h3 (by simp)
          | ok s =>
            obtain ⟨rrs, names3, b4⟩ := s
            rw [h4] at h3
            dsimp only at h3
            simp only [Except.ok.injEq, Prod.mk.injEq] at h3
            constructor
            · intro h0
              exact absurd h0 ha
            · intro _
              refine ⟨rrs, ?_, parse_rr_list_len _ _ _ _ _ _ h4⟩
              rw [← h3.1]

/-- Witness for `c10_answers_presence`: a minimal zero-answer message yields
`none`, and a minimal one-answer message yields a present singleton list. -/
theorem c10_answers_presence_witness :
    (({ header := { id := 0, q_type := 0, truncated := false,
                    recursion_desired := false, question_count := 1,
                    answer_count := 0, authority_count := 0,
                    additional_count := 0 },
        question := { domain_name := [], q_type := 1, q_class := 1 },
        answers := none } : Message).answers = none) ∧
    (∃ l, ({ header := { id := 0, q_type := 0, truncated := false,
                         recursion_desired := false, question_count := 1,
                         answer_count := 1, authority_count := 0,
                         additional_count := 0 },
             question := { domain_name := [], q_type := 1, q_class := 1 },
             answers := some [{ name := [], type := 2, class_ := 1, ttl := 0,
                                data_length := 0, data := .A 0 0 0 0 }] } :
             Message).answers = some l ∧
      l.length = ({ header := { id := 0, q_type := 0, truncated := false,
                                recursion_desired := false, question_count := 1,
                                answer_count := 1, authority_count := 0,
                                additional_count := 0 },
                    question := { domain_name := [], q_type := 1, q_class := 1 },
                    answers := some [{ name := [], type := 2, class_ := 1,
                                       ttl := 0, data_length := 0,
                                       data := .A 0 0 0 0 }] } :
                    Message).header.answer_count) :=
  ⟨(c10_answers_presence [0, 0, 0, 0, 0, 1, 0, 0, 0, 0, 0, 0, 0, 0, 1, 0, 1]
      { header := { id := 0, q_type := 0, truncated := false,
                    recursion_desired := false, question_count := 1,
                    answer_count := 0, authority_count := 0,
                    additional_count := 0 },
        question := { domain_name := [], q_type := 1, q_class := 1 },
        answers := none } (by rfl)).1 (by rfl),
   (c10_answers_presence
      [0, 0, 0, 0, 0, 1, 0, 1, 0, 0, 0, 0, 0, 0, 1, 0, 1,
       0, 0, 2, 0, 1, 0, 0, 0, 0, 0, 0]
      { header := { id := 0, q_type := 0, truncated := false,
                    recursion_desired := false, question_count := 1,
                    answer_count := 1, authority_count := 0,
                    additional_count := 0 },
        question := { domain_name := [], q_type := 1, q_class := 1 },
        answers := some [{ name := [], type := 2, class_ := 1, ttl := 0,
                           data_length := 0, data := .A 0 0 0 0 }] }
      (by rfl)).2 (by decide)⟩

/-- On valid UTF-8 input the lossy decoder is the identity. -/
theorem utf8Lossy_of_valid :
    ∀ (n : Nat) (l : List Nat), l.length ≤ n → validUtf8 l = true →
      utf8Lossy l = l := by
  intro n
  induction n with
  | zero =>
    intro l hl _
    have hnil : l = [] := List.eq_nil_of_length_eq_zero (Nat.le_zero.mp hl)
    subst hnil
    rfl
  | succ n ih =>
    intro l hl hv
    cases l with
    | nil => rfl
    | cons b rest =>
      rw [validUtf8.eq_def] at hv
      dsimp only at hv
      rw [utf8Lossy.eq_def]
      dsimp only
      by_cases hb1 : b ≤ 0x7F
      · rw [if_pos hb1] at hv ⊢
        rw [ih rest (by simp only [List.length_cons] at hl; omega) hv]
      · rw [if_neg hb1] at hv ⊢
        by_cases hb2 : (0xC2 ≤ b && b ≤ 0xDF) = true
        · rw [if_pos hb2] at hv ⊢
          cases rest with
          | nil => exact absurd hv (by simp)
          | cons c rest2 =>
            dsimp only at hv ⊢
            simp only [Bool.and_eq_true] at hv
            rw [if_pos hv.1]
            rw [ih rest2 (by simp only [List.length_cons] at hl; omega) hv.2]
        · rw [if_neg hb2] at hv ⊢
          by_cases hb3 : (0xE0 ≤ b && b ≤ 0xEF) = true
          · rw [if_pos hb3] at hv ⊢
            cases rest with
            | nil => exact absurd hv (by simp)
            | cons c rest2 =>
              dsimp only at hv ⊢
              by_cases hc : cont3ok b c = true
              · rw [if_pos hc] at hv ⊢
                cases rest2 with
                | nil => exact absurd hv (by simp)
                | cons d rest3 =>
                  dsimp only at hv ⊢
                  simp only [Bool.and_eq_true] at hv
                  rw [if_pos hv.1]
                  rw [ih rest3 (by simp only [List.length_cons] at hl; omega) hv.2]
              · rw [if_neg hc] at hv
                exact absurd hv (by simp)
          · rw [if_neg hb3] at hv ⊢
            by_cases hb4 : (0xF0 ≤ b && b ≤ 0xF4) = true
            · rw [if_pos hb4] at hv ⊢
              cases rest with
              | nil => exact absurd hv (by simp)
              | cons c rest2 =>
                dsimp only at hv ⊢
                by_cases hc : cont4ok b c = true
                · rw [if_pos hc] at hv ⊢
                  cases rest2 with
                  | nil => exact absurd hv (by simp)
                  | cons d rest3 =>
                    dsimp only at hv ⊢
                    by_cases hd : isCont d = true
                    · rw [if_pos hd] at hv ⊢
                      cases rest3 with
                      | nil => exact absurd hv (by simp)
                      | cons e rest4 =>
                        dsimp only at hv ⊢
                        simp only [Bool.and_eq_true] at hv
                        rw [if_pos hv.1]
                        rw [ih rest4
                          (by simp only [List.length_cons] at hl; omega) hv.2]
                    · rw [if_neg hd] at hv
                      exact absurd hv (by simp)
                · rw [if_neg hc] at hv
                  exact absurd hv (by simp)
            · rw [if_neg hb4] at hv
              exact absurd hv (by simp)

/-- The span consumed by the label loop on a pointerless, valid-UTF-8 name
suffix re-encodes exactly: starting with current length byte `L` and the
cursor at `i`, a successful run appends labels whose length-prefixed join,
headed by `L` and terminated by the root byte, equals the consumed bytes. -/
theorem loop_roundtrip {buf : List Nat} {L i : Nat} (hs : PlainSpan buf L i) :
    ∀ (fuel : Nat) (names : Names) (acc labels : Labels) (b' : Buffer),
      parseNameLoop names fuel { next_index := i, buffer := buf } L acc =
        .ok (labels, b') →
      b'.buffer = buf ∧ i ≤ b'.next_index ∧
        ∃ suf, labels = acc ++ suf ∧
          L :: ((buf.drop i).take (b'.next_index - i)) =
            (suf.flatMap fun l => l.length :: l) ++ [0] := by
  induction hs with
  | root j =>
    intro fuel names acc labels b' h
    rw [parseNameLoop_zero] at h
    simp only [Except.ok.injEq, Prod.mk.injEq] at h
    obtain ⟨hl, hb⟩ := h
    subst hl
    subst hb
    exact ⟨rfl, Nat.le_refl j, [], by simp, by simp⟩
  | label L j L2 hne hptr hval hnext htail ih =>
    intro fuel names acc labels b' h
    cases fuel with
    | zero =>
      simp only [parseNameLoop, if_neg hne] at h
      exact absurd h (by simp)
    | succ f =>
      simp only [parseNameLoop, if_neg hne, hptr] at h
      have hlt : j + L < buf.length := by
        by_contra hge2
        rw [List.getElem?_eq_none (by omega)] at hnext
        exact absurd hnext (by simp)
      rw [next_n_ok_intro (show j + L ≤ buf.length from by omega)] at h
      dsimp only at h
      rw [next_ok_intro hnext] at h
      dsimp only at h
      rw [utf8Lossy_of_valid ((buf.drop j).take L).length _ (Nat.le_refl _) hval]
        at h
      obtain ⟨hbuf, hge, suf2, hlab, hspan⟩ :=
        ih f names (acc ++ [(buf.drop j).take L]) labels b' h
      have hCl : ((buf.drop j).take L).length = L := by
        rw [List.length_take, List.length_drop]
        omega
      have hgetl : buf[j + L] = L2 := by
        have hx := hnext
        rw [List.getElem?_eq_getElem hlt] at hx
        simpa using hx
      have h2 : buf.drop (j + L) = L2 :: buf.drop (j + L + 1) := by
        rw [List.drop_eq_getElem_cons hlt, hgetl]
      have h1 : buf.drop j = (buf.drop j).take L ++ buf.drop (j + L) := by
        conv_lhs => rw [← List.take_append_drop L (buf.drop j)]
        rw [List.drop_drop, Nat.add_comm]
      have key : (buf.drop j).take (b'.next_index - j) =
          (buf.drop j).take L ++
            L2 :: (buf.drop (j + L + 1)).take (b'.next_index - (j + L + 1)) := by
        conv_lhs => rw [h1]
        rw [List.take_append_eq_append_take]
        rw [List.take_of_length_le (show ((buf.drop j).take L).length ≤
              b'.next_index - j from by rw [hCl]; omega)]
        rw [hCl, h2]
        rw [show b'.next_index - j - L = (b'.next_index - (j + L + 1)) + 1 from
              by omega]
        rw [List.take_succ_cons]
      refine ⟨hbuf, by omega, ((buf.drop j).take L) :: suf2, ?_, ?_⟩
      · rw [hlab, List.append_assoc]
        rfl
      · rw [key]
        simp only [List.flatMap_cons, List.cons_append, List.append_assoc, hCl]
        rw [← hspan]

/-- C7 (amended): for every domain name decoded without encountering a
compression pointer and whose label bytes are valid UTF-8 (so the lossy text
decoding changes nothing), re-encoding the returned label sequence — each
label prefixed by its byte length, with a trailing zero byte — reproduces
exactly the byte span `parse_name` consumed.  (The unamended claim fails on
labels that are not valid UTF-8, see the counterexample.) -/
theorem c7_roundtrip :
    ∀ (b : Buffer) (names : Names) (L : Nat) (labels : Labels) (names' : Names)
      (b' : Buffer),
      b.buffer[b.next_index]? = some L →
      PlainSpan b.buffer L (b.next_index + 1) →
      parse_name b names = .ok (labels, names', b') →
      encodeName labels =
        (b.buffer.drop b.next_index).take (b'.next_index - b.next_index) := by
  intro b names L labels names' b' hL hs h
  obtain ⟨i, buf⟩ := b
  dsimp only at hL hs ⊢
  unfold parse_name at h
  dsimp only at h
  rw [next_ok_intro hL] at h
  dsimp only at h
  cases h2 : parseNameLoop names (buf.length + 1)
      { next_index := i + 1, buffer := buf } L [] with
  | error e => rw [h2] at h; exact absurd h (by simp)
  | ok q =>
    obtain ⟨nm, b2⟩ := q
    rw [h2] at h
    dsimp only at h
    simp only [Except.ok.injEq, Prod.mk.injEq] at h
    obtain ⟨hl, -, hb⟩ := h
    subst hl
    subst hb
    obtain ⟨hbuf, hge, suf, hsuf, hspan⟩ :=
      loop_roundtrip hs (buf.length + 1) names [] nm b2 h2
    rw [List.nil_append] at hsuf
    subst hsuf
    have hlt : i < buf.length := by
      by_contra hge2
      rw [List.getElem?_eq_none (by omega)] at hL
      exact absurd hL (by simp)
    have hgetl : buf[i] = L := by
      have hx := hL
      rw [List.getElem?_eq_getElem hlt] at hx
      simpa using hx
    have hdi : buf.drop i = L :: buf.drop (i + 1) := by
      rw [List.drop_eq_getElem_cons hlt, hgetl]
    unfold encodeName
    rw [hdi]
    rw [show b2.next_index - i = (b2.next_index - (i + 1)) + 1 from by omega]
    rw [List.take_succ_cons]
    exact hspan.symm

/-- Witness for `c7_roundtrip`: the plain name `[1, 97, 0]` (single ASCII
label `a`) re-encodes to exactly its consumed three-byte span. -/
theorem c7_roundtrip_witness :
    encodeName [[97]] =
      (([1, 97, 0] : List Nat).drop 0).take
        (({ next_index := 3, buffer := [1, 97, 0] } : Buffer).next_index - 0) :=
  c7_roundtrip { next_index := 0, buffer := [1, 97, 0] } [] 1 [[97]]
    [(0, [[97]])] { next_index := 3, buffer := [1, 97, 0] } (by rfl)
    (PlainSpan.label 1 1 0 (by decide) (by decide) (by decide) (by rfl)
      (PlainSpan.root 3))
    (by rfl)

end Scopa
